import Mathlib

/-!
Shallow embedding of the elbow-arrow router in
`crates/drafftink-core/src/elbow.rs`.

Coordinates are modelled as rationals (`ℚ`) in place of `f64`; all the
constants and midpoint operations appearing in the source are exact in `ℚ`.
Grid indices (`i32`) are modelled as `ℤ` and the `u64` costs as `ℕ`.
-/

/-- Two-dimensional point, standing for `kurbo::Point`. -/
structure Point where
  x : ℚ
  y : ℚ
  deriving DecidableEq

/-- `const GRID_SIZE: f64 = 20.0;` -/
def GRID_SIZE : ℚ := 20

/-- Semantics of Rust `f64::round`: nearest integer, ties rounded away
from zero. -/
def roundTiesAway (q : ℚ) : ℤ :=
  if q < 0 then -⌊-q + 1/2⌋ else ⌊q + 1/2⌋

/-- `fn to_grid(v: f64) -> i32 { (v / GRID_SIZE).round() as i32 }` -/
def to_grid (v : ℚ) : ℤ := roundTiesAway (v / GRID_SIZE)

/-- `fn from_grid(v: i32) -> f64 { v as f64 * GRID_SIZE }` -/
def from_grid (v : ℤ) : ℚ := (v : ℚ) * GRID_SIZE

/-- Cardinal direction for orthogonal movement (`enum Heading`). -/
inductive Heading where
  | Up
  | Down
  | Left
  | Right
  | None
  deriving DecidableEq

/-- `Heading::reverse`. -/
def Heading.reverse : Heading → Heading
  | Heading.Up => Heading.Down
  | Heading.Down => Heading.Up
  | Heading.Left => Heading.Right
  | Heading.Right => Heading.Left
  | Heading.None => Heading.None

/-- Grid cell with current heading for the A* state (`struct Cell`). -/
structure Cell where
  x : ℤ
  y : ℤ
  heading : Heading
  deriving DecidableEq

/-- `Cell::new`. -/
def Cell.new (x y : ℤ) (heading : Heading) : Cell := ⟨x, y, heading⟩

/-- `fn manhattan` (the `u64` result modelled as `ℕ`). -/
def manhattan (x1 y1 x2 y2 : ℤ) : ℕ :=
  (x1 - x2).natAbs + (y1 - y2).natAbs

/-- `fn neighbors(cell, turn_penalty)`: the four cardinal moves, with the
move whose heading reverses the cell's heading filtered out, each carrying
the moved-to cell and its edge cost. -/
def neighbors (cell : Cell) (turn_penalty : ℕ) : List (Cell × ℕ) :=
  let moves : List (ℤ × ℤ × Heading) :=
    [(0, -1, Heading.Up), (0, 1, Heading.Down),
     (-1, 0, Heading.Left), (1, 0, Heading.Right)]
  (moves.filter (fun m => m.2.2 ≠ cell.heading.reverse)).map
    (fun m =>
      let cost : ℕ :=
        if cell.heading = Heading.None ∨ cell.heading = m.2.2 then 1
        else 1 + turn_penalty ^ 3
      (Cell.new (cell.x + m.1) (cell.y + m.2.1) m.2.2, cost))

/-- `fn estimate(cell, ex, ey, turn_penalty)`. -/
def estimate (cell : Cell) (ex ey : ℤ) (turn_penalty : ℕ) : ℕ :=
  let dist := manhattan cell.x cell.y ex ey
  let turns : ℕ := if cell.x = ex ∨ cell.y = ey then 0 else 1
  dist + turns * turn_penalty ^ 2

/-- The departure-heading computation of `compute_elbow_path`
(`s` is the source's `start`, `e` its `end`). -/
def departure_heading (s e : Point) : Heading :=
  let dx := e.x - s.x
  let dy := e.y - s.y
  if |dx| ≥ |dy| then
    if dx > 0 then Heading.Right else Heading.Left
  else if dy > 0 then Heading.Down else Heading.Up

/-- The `(departure, arrival)` waypoint pair of `compute_elbow_path`:
dongles at the midpoint on the departure axis. -/
def waypoints (s e : Point) : Point × Point :=
  let mid_x := (s.x + e.x) / 2
  let mid_y := (s.y + e.y) / 2
  match departure_heading s e with
  | Heading.Right => (Point.mk mid_x s.y, Point.mk mid_x e.y)
  | Heading.Left => (Point.mk mid_x s.y, Point.mk mid_x e.y)
  | _ => (Point.mk s.x mid_y, Point.mk e.x mid_y)

/-- `pub fn compute_elbow_path(start, end)`.  The `.expect` on the A*
result can panic, so the result type is `Option`; the final `else` branch,
which is the only place the external `pathfinding::astar` library would
run (followed by `extract_corners`), is modelled as `none`, i.e. as the
case not covered by this embedding.  The theorems below prove that branch
unreachable, so `none` never occurs and the modelling of the call itself
is never needed. -/
def compute_elbow_path (s e : Point) : Option (List Point) :=
  let dx := e.x - s.x
  let dy := e.y - s.y
  if |dx| < GRID_SIZE then some []
  else if |dy| < GRID_SIZE then some []
  else
    let w := waypoints s e
    let departure := w.1
    let arrival := w.2
    let sx := to_grid departure.x
    let sy := to_grid departure.y
    let ex := to_grid arrival.x
    let ey := to_grid arrival.y
    if sx = ex ∨ sy = ey then some [departure, arrival]
    else none

/-- Two points share exactly one coordinate: equal x with different y, or
equal y with different x. -/
def sharesExactlyOne (p q : Point) : Prop :=
  (p.x = q.x ∧ p.y ≠ q.y) ∨ (p.x ≠ q.x ∧ p.y = q.y)

instance (p q : Point) : Decidable (sharesExactlyOne p q) := by
  unfold sharesExactlyOne; infer_instance

/-- In the output layout `departure ++ corners ++ arrival`, the number of
corner points of a non-empty output of length n is n - 2. -/
def corner_count (ps : List Point) : ℕ := ps.length - 2

/-- Displacement of one grid step along a heading. -/
def headingDelta : Heading → ℤ × ℤ
  | Heading.Up => (0, -1)
  | Heading.Down => (0, 1)
  | Heading.Left => (-1, 0)
  | Heading.Right => (1, 0)
  | Heading.None => (0, 0)

/-! ### Helper lemmas -/

/-- Whichever heading is chosen, the two waypoints share the departure
axis coordinate, so their grid quantizations agree on that axis. -/
theorem waypoints_aligned (s e : Point) :
    to_grid (waypoints s e).1.x = to_grid (waypoints s e).2.x ∨
    to_grid (waypoints s e).1.y = to_grid (waypoints s e).2.y := by
  unfold waypoints
  rcases h : departure_heading s e <;> simp

/-- When both offsets reach the grid size, the function returns the two
waypoints: the alignment test always succeeds. -/
theorem compute_elbow_path_far (s e : Point)
    (h1 : ¬ |e.x - s.x| < GRID_SIZE) (h2 : ¬ |e.y - s.y| < GRID_SIZE) :
    compute_elbow_path s e = some [(waypoints s e).1, (waypoints s e).2] := by
  unfold compute_elbow_path
  simp only [if_neg h1, if_neg h2]
  rw [if_pos (waypoints_aligned s e)]

/-- When either offset is below the grid size, the function returns the
empty list. -/
theorem compute_elbow_path_near (s e : Point)
    (h : |e.x - s.x| < GRID_SIZE ∨ |e.y - s.y| < GRID_SIZE) :
    compute_elbow_path s e = some [] := by
  unfold compute_elbow_path
  rcases h with h | h
  · rw [if_pos h]
  · by_cases h1 : |e.x - s.x| < GRID_SIZE
    · rw [if_pos h1]
    · rw [if_neg h1, if_pos h]

/-- Every run returns `some`: either the empty list or the waypoint pair. -/
theorem compute_elbow_path_cases (s e : Point) :
    compute_elbow_path s e = some [] ∨
    compute_elbow_path s e = some [(waypoints s e).1, (waypoints s e).2] := by
  by_cases h1 : |e.x - s.x| < GRID_SIZE
  · exact Or.inl (compute_elbow_path_near s e (Or.inl h1))
  · by_cases h2 : |e.y - s.y| < GRID_SIZE
    · exact Or.inl (compute_elbow_path_near s e (Or.inr h2))
    · exact Or.inr (compute_elbow_path_far s e h1 h2)

/-- The output is empty exactly when one of the offsets is below the grid
size. -/
theorem compute_elbow_path_empty_iff (s e : Point) :
    compute_elbow_path s e = some [] ↔
      (|e.x - s.x| < GRID_SIZE ∨ |e.y - s.y| < GRID_SIZE) := by
  constructor
  · intro h
    by_contra hc
    push_neg at hc
    rw [compute_elbow_path_far s e (not_lt.mpr hc.1) (not_lt.mpr hc.2)] at h
    simp at h
  · exact compute_elbow_path_near s e

/-- An offset at least `GRID_SIZE` in absolute value is nonzero. -/
theorem far_ne {a b : ℚ} (h : ¬ |b - a| < GRID_SIZE) : b ≠ a := by
  intro hc
  apply h
  rw [hc]
  norm_num [GRID_SIZE]

/-- The midpoint of two distinct rationals differs from the left one. -/
theorem mid_ne_left {a b : ℚ} (h : b ≠ a) : (a + b) / 2 ≠ a := by
  intro hc
  apply h
  linarith

/-- The midpoint of two distinct rationals differs from the right one. -/
theorem mid_ne_right {a b : ℚ} (h : b ≠ a) : (a + b) / 2 ≠ b := by
  intro hc
  apply h
  linarith

/-- Concrete run: waypoints of `(0,0) → (100,100)`. -/
theorem waypoints_ex1 : waypoints ⟨0, 0⟩ ⟨100, 100⟩ = (⟨50, 0⟩, ⟨50, 100⟩) := by
  unfold waypoints
  norm_num [departure_heading, Point.mk.injEq, Prod.ext_iff]

/-- Concrete run: waypoints of `(0,0) → (200,40)`. -/
theorem waypoints_ex2 : waypoints ⟨0, 0⟩ ⟨200, 40⟩ = (⟨100, 0⟩, ⟨100, 40⟩) := by
  unfold waypoints
  norm_num [departure_heading, Point.mk.injEq, Prod.ext_iff]

/-- Concrete run: waypoints of `(100,100) → (0,0)`. -/
theorem waypoints_ex3 : waypoints ⟨100, 100⟩ ⟨0, 0⟩ = (⟨50, 100⟩, ⟨50, 0⟩) := by
  unfold waypoints
  norm_num [departure_heading, Point.mk.injEq, Prod.ext_iff]

/-- Concrete run: the path for `(0,0) → (100,100)`. -/
theorem path_ex1 :
    compute_elbow_path ⟨0, 0⟩ ⟨100, 100⟩ = some [⟨50, 0⟩, ⟨50, 100⟩] := by
  rw [compute_elbow_path_far ⟨0, 0⟩ ⟨100, 100⟩ (by norm_num [GRID_SIZE])
    (by norm_num [GRID_SIZE]), waypoints_ex1]

/-- Concrete run: the path for `(0,0) → (200,40)`. -/
theorem path_ex2 :
    compute_elbow_path ⟨0, 0⟩ ⟨200, 40⟩ = some [⟨100, 0⟩, ⟨100, 40⟩] := by
  rw [compute_elbow_path_far ⟨0, 0⟩ ⟨200, 40⟩ (by norm_num [GRID_SIZE])
    (by norm_num [GRID_SIZE]), waypoints_ex2]

/-- Concrete run: the path for `(100,100) → (0,0)`. -/
theorem path_ex3 :
    compute_elbow_path ⟨100, 100⟩ ⟨0, 0⟩ = some [⟨50, 100⟩, ⟨50, 0⟩] := by
  rw [compute_elbow_path_far ⟨100, 100⟩ ⟨0, 0⟩ (by norm_num [GRID_SIZE])
    (by norm_num [GRID_SIZE]), waypoints_ex3]

/-- Horizontal-departure waypoints, spelled out. -/
theorem waypoints_horizontal (s e : Point)
    (h : departure_heading s e = Heading.Right ∨ departure_heading s e = Heading.Left) :
    waypoints s e =
      (Point.mk ((s.x + e.x) / 2) s.y, Point.mk ((s.x + e.x) / 2) e.y) := by
  unfold waypoints
  rcases h with h | h <;> rw [h]

/-- Vertical-departure waypoints, spelled out. -/
theorem waypoints_vertical (s e : Point)
    (h : departure_heading s e ≠ Heading.Right)
    (h2 : departure_heading s e ≠ Heading.Left) :
    waypoints s e =
      (Point.mk s.x ((s.y + e.y) / 2), Point.mk e.x ((s.y + e.y) / 2)) := by
  unfold waypoints
  cases hd : departure_heading s e
  case Right => exact absurd hd h
  case Left => exact absurd hd h2
  all_goals rfl

/-- The horizontal three-segment polyline is axis-aligned at every joint. -/
theorem chain_horizontal (s e : Point) (hx : e.x ≠ s.x) (hy : e.y ≠ s.y) :
    List.Chain' sharesExactlyOne
      [s, Point.mk ((s.x + e.x) / 2) s.y, Point.mk ((s.x + e.x) / 2) e.y, e] := by
  refine List.chain'_cons.mpr ⟨?_, List.chain'_cons.mpr
    ⟨?_, List.chain'_cons.mpr ⟨?_, List.chain'_singleton _⟩⟩⟩
  · exact Or.inr ⟨(mid_ne_left hx).symm, rfl⟩
  · exact Or.inl ⟨rfl, hy.symm⟩
  · exact Or.inr ⟨mid_ne_right hx, rfl⟩

/-- The vertical three-segment polyline is axis-aligned at every joint. -/
theorem chain_vertical (s e : Point) (hx : e.x ≠ s.x) (hy : e.y ≠ s.y) :
    List.Chain' sharesExactlyOne
      [s, Point.mk s.x ((s.y + e.y) / 2), Point.mk e.x ((s.y + e.y) / 2), e] := by
  refine List.chain'_cons.mpr ⟨?_, List.chain'_cons.mpr
    ⟨?_, List.chain'_cons.mpr ⟨?_, List.chain'_singleton _⟩⟩⟩
  · exact Or.inl ⟨rfl, (mid_ne_left hy).symm⟩
  · exact Or.inr ⟨hx.symm, rfl⟩
  · exact Or.inl ⟨rfl, mid_ne_right hy⟩

/-- Explicit neighbor list for an `Up` cell. -/
theorem neighbors_up (x y : ℤ) (tp : ℕ) :
    neighbors ⟨x, y, Heading.Up⟩ tp =
      [(Cell.new x (y - 1) Heading.Up, 1),
       (Cell.new (x - 1) y Heading.Left, 1 + tp ^ 3),
       (Cell.new (x + 1) y Heading.Right, 1 + tp ^ 3)] := by
  simp [neighbors, Heading.reverse, Cell.new]
  omega

/-- Explicit neighbor list for a `Down` cell. -/
theorem neighbors_down (x y : ℤ) (tp : ℕ) :
    neighbors ⟨x, y, Heading.Down⟩ tp =
      [(Cell.new x (y + 1) Heading.Down, 1),
       (Cell.new (x - 1) y Heading.Left, 1 + tp ^ 3),
       (Cell.new (x + 1) y Heading.Right, 1 + tp ^ 3)] := by
  simp [neighbors, Heading.reverse, Cell.new]
  omega

/-- Explicit neighbor list for a `Left` cell. -/
theorem neighbors_left (x y : ℤ) (tp : ℕ) :
    neighbors ⟨x, y, Heading.Left⟩ tp =
      [(Cell.new x (y - 1) Heading.Up, 1 + tp ^ 3),
       (Cell.new x (y + 1) Heading.Down, 1 + tp ^ 3),
       (Cell.new (x - 1) y Heading.Left, 1)] := by
  simp [neighbors, Heading.reverse, Cell.new]
  omega

/-- Explicit neighbor list for a `Right` cell. -/
theorem neighbors_right (x y : ℤ) (tp : ℕ) :
    neighbors ⟨x, y, Heading.Right⟩ tp =
      [(Cell.new x (y - 1) Heading.Up, 1 + tp ^ 3),
       (Cell.new x (y + 1) Heading.Down, 1 + tp ^ 3),
       (Cell.new (x + 1) y Heading.Right, 1)] := by
  simp [neighbors, Heading.reverse, Cell.new]
  omega

/-- Explicit neighbor list for a cell with heading `None`. -/
theorem neighbors_noheading (x y : ℤ) (tp : ℕ) :
    neighbors ⟨x, y, Heading.None⟩ tp =
      [(Cell.new x (y - 1) Heading.Up, 1),
       (Cell.new x (y + 1) Heading.Down, 1),
       (Cell.new (x - 1) y Heading.Left, 1),
       (Cell.new (x + 1) y Heading.Right, 1)] := by
  simp [neighbors, Heading.reverse, Cell.new]
  omega

/-! ### Claim theorems -/

/-- C1 (counterexample to the claim as stated): for start `(0,0)` and end
`(5,5)` the output is empty, and the resulting polyline `start, end` is a
diagonal segment: its single consecutive pair shares no coordinate. -/
theorem C1_counterexample :
    compute_elbow_path ⟨0, 0⟩ ⟨5, 5⟩ = some [] ∧
    ¬ List.Chain' sharesExactlyOne
        ((⟨0, 0⟩ : Point) :: ([] : List Point) ++ [(⟨5, 5⟩ : Point)]) := by
  constructor
  · exact compute_elbow_path_near ⟨0, 0⟩ ⟨5, 5⟩ (by norm_num [GRID_SIZE])
  · intro hc
    simp only [List.cons_append, List.nil_append, List.chain'_pair] at hc
    rcases hc with ⟨h1, _⟩ | ⟨_, h2⟩
    · norm_num at h1
    · norm_num at h2

/-- C1 (amended): whenever the output is non-empty, every consecutive pair
of the polyline `start, p1, …, pn, end` shares exactly one coordinate
(never neither, never both).  The empty-output case can join two points
that are not axis-aligned. -/
theorem C1_axis_alignment_nonempty (s e : Point) (ps : List Point)
    (h : compute_elbow_path s e = some ps) (hne : ps ≠ []) :
    List.Chain' sharesExactlyOne (s :: ps ++ [e]) := by
  by_cases h1 : |e.x - s.x| < GRID_SIZE
  · rw [compute_elbow_path_near s e (Or.inl h1)] at h
    injection h with h
    exact absurd h.symm hne
  · by_cases h2 : |e.y - s.y| < GRID_SIZE
    · rw [compute_elbow_path_near s e (Or.inr h2)] at h
      injection h with h
      exact absurd h.symm hne
    · rw [compute_elbow_path_far s e h1 h2] at h
      injection h with h
      subst h
      have hx : e.x ≠ s.x := far_ne h1
      have hy : e.y ≠ s.y := far_ne h2
      by_cases hh : departure_heading s e = Heading.Right ∨
          departure_heading s e = Heading.Left
      · rw [waypoints_horizontal s e hh]
        exact chain_horizontal s e hx hy
      · push_neg at hh
        rw [waypoints_vertical s e hh.1 hh.2]
        exact chain_vertical s e hx hy

/-- C1 witness: the amended theorem applied to the concrete run
`(0,0) → (100,100)`. -/
theorem C1_witness :
    List.Chain' sharesExactlyOne
      ((⟨0, 0⟩ : Point) :: [(⟨50, 0⟩ : Point), ⟨50, 100⟩] ++ [(⟨100, 100⟩ : Point)]) :=
  C1_axis_alignment_nonempty ⟨0, 0⟩ ⟨100, 100⟩ [⟨50, 0⟩, ⟨50, 100⟩] path_ex1 (by simp)

/-- C2: whenever either coordinate offset is below 20 in absolute value,
the output is the empty sequence. -/
theorem C2_straight_line_shortcut (s e : Point)
    (h : |e.x - s.x| < 20 ∨ |e.y - s.y| < 20) :
    compute_elbow_path s e = some [] :=
  compute_elbow_path_near s e h

/-- C2 witness: the shortcut at `(0,0) → (5,5)`. -/
theorem C2_witness : compute_elbow_path ⟨0, 0⟩ ⟨5, 5⟩ = some [] :=
  C2_straight_line_shortcut ⟨0, 0⟩ ⟨5, 5⟩ (by norm_num)

/-- C3 (counterexample to the claim as stated): no input points exist for
which the quantized waypoints disagree on both axes; the claimed inputs
that force a searched turn do not exist. -/
theorem C3_counterexample :
    ¬ ∃ s e : Point,
      to_grid (waypoints s e).1.x ≠ to_grid (waypoints s e).2.x ∧
      to_grid (waypoints s e).1.y ≠ to_grid (waypoints s e).2.y := by
  rintro ⟨s, e, hx, hy⟩
  rcases waypoints_aligned s e with h | h
  · exact hx h
  · exact hy h

/-- C3 (amended): for every pair of input points the quantized waypoints
satisfy `sx = ex` or `sy = ey`, so the A* search and corner extraction are
never reached and no output ever contains a corner point. -/
theorem C3_waypoints_always_aligned (s e : Point) :
    to_grid (waypoints s e).1.x = to_grid (waypoints s e).2.x ∨
    to_grid (waypoints s e).1.y = to_grid (waypoints s e).2.y :=
  waypoints_aligned s e

/-- C4: the output always exists and is either empty or exactly the pair
`[departure, arrival]` (length 0 or 2); the A* search branch is never
taken. -/
theorem C4_output_shape (s e : Point) :
    compute_elbow_path s e = some [] ∨
    compute_elbow_path s e = some [(waypoints s e).1, (waypoints s e).2] :=
  compute_elbow_path_cases s e

/-- C5: with both offsets at least 20 in absolute value, the departure
heading is chosen by dominant axis (horizontal preferred on ties), and the
waypoints are the two dongle points on the midpoint line of that axis. -/
theorem C5_departure_heading_waypoints (s e : Point)
    (hx : |e.x - s.x| ≥ 20) (hy : |e.y - s.y| ≥ 20) :
    (|e.x - s.x| ≥ |e.y - s.y| →
      departure_heading s e =
        (if e.x - s.x > 0 then Heading.Right else Heading.Left) ∧
      waypoints s e =
        (Point.mk ((s.x + e.x) / 2) s.y, Point.mk ((s.x + e.x) / 2) e.y)) ∧
    (¬ |e.x - s.x| ≥ |e.y - s.y| →
      departure_heading s e =
        (if e.y - s.y > 0 then Heading.Down else Heading.Up) ∧
      waypoints s e =
        (Point.mk s.x ((s.y + e.y) / 2), Point.mk e.x ((s.y + e.y) / 2))) := by
  constructor
  · intro hcmp
    have hh : departure_heading s e =
        if e.x - s.x > 0 then Heading.Right else Heading.Left := by
      simp only [departure_heading]
      rw [if_pos hcmp]
    refine ⟨hh, waypoints_horizontal s e ?_⟩
    by_cases hdx : e.x - s.x > 0
    · exact Or.inl (by rw [hh, if_pos hdx])
    · exact Or.inr (by rw [hh, if_neg hdx])
  · intro hcmp
    have hh : departure_heading s e =
        if e.y - s.y > 0 then Heading.Down else Heading.Up := by
      simp only [departure_heading]
      rw [if_neg hcmp]
    refine ⟨hh, waypoints_vertical s e ?_ ?_⟩ <;> rw [hh] <;>
      by_cases hdy : e.y - s.y > 0 <;> simp [hdy]

/-- C5 witness: the tie case `(0,0) → (100,100)` departs `Right` with
dongles at `mid_x = 50`. -/
theorem C5_witness :
    departure_heading ⟨0, 0⟩ ⟨100, 100⟩ = Heading.Right ∧
    waypoints ⟨0, 0⟩ ⟨100, 100⟩ = (Point.mk 50 0, Point.mk 50 100) := by
  have h := (C5_departure_heading_waypoints ⟨0, 0⟩ ⟨100, 100⟩
    (by norm_num) (by norm_num)).1 (by norm_num)
  constructor
  · rw [h.1]
    norm_num
  · rw [h.2]
    norm_num [Point.mk.injEq, Prod.ext_iff]

/-- C6: the two worked examples of the spec, evaluated exactly. -/
theorem C6_examples :
    compute_elbow_path ⟨0, 0⟩ ⟨100, 100⟩ = some [⟨50, 0⟩, ⟨50, 100⟩] ∧
    compute_elbow_path ⟨0, 0⟩ ⟨200, 40⟩ = some [⟨100, 0⟩, ⟨100, 40⟩] :=
  ⟨path_ex1, path_ex2⟩

/-- C7: routing `(a, b)` and routing `(b, a)` produce the same number of
output points and the same corner count. -/
theorem C7_symmetry (a b : Point) (ps qs : List Point)
    (hab : compute_elbow_path a b = some ps)
    (hba : compute_elbow_path b a = some qs) :
    ps.length = qs.length ∧ corner_count ps = corner_count qs := by
  have hsymx : |a.x - b.x| = |b.x - a.x| := abs_sub_comm _ _
  have hsymy : |a.y - b.y| = |b.y - a.y| := abs_sub_comm _ _
  by_cases hE : |b.x - a.x| < GRID_SIZE ∨ |b.y - a.y| < GRID_SIZE
  · rw [compute_elbow_path_near a b hE] at hab
    rw [compute_elbow_path_near b a (by rw [hsymx, hsymy]; exact hE)] at hba
    injection hab with hab
    injection hba with hba
    rw [← hab, ← hba]
    exact ⟨rfl, rfl⟩
  · push_neg at hE
    rw [compute_elbow_path_far a b (not_lt.mpr hE.1) (not_lt.mpr hE.2)] at hab
    rw [compute_elbow_path_far b a (by rw [hsymx]; exact not_lt.mpr hE.1)
      (by rw [hsymy]; exact not_lt.mpr hE.2)] at hba
    injection hab with hab
    injection hba with hba
    rw [← hab, ← hba]
    exact ⟨rfl, rfl⟩

/-- C7 witness: `(0,0) ↔ (100,100)` both give two points and zero
corners. -/
theorem C7_witness :
    ([(⟨50, 0⟩ : Point), ⟨50, 100⟩].length =
      [(⟨50, 100⟩ : Point), ⟨50, 0⟩].length) ∧
    corner_count [(⟨50, 0⟩ : Point), ⟨50, 100⟩] =
      corner_count [(⟨50, 100⟩ : Point), ⟨50, 0⟩] :=
  C7_symmetry ⟨0, 0⟩ ⟨100, 100⟩ [⟨50, 0⟩, ⟨50, 100⟩] [⟨50, 100⟩, ⟨50, 0⟩]
    path_ex1 path_ex3

/-- C8: the function is deterministic: equal inputs give identical
outputs (the embedding is a pure function of its two arguments, as is the
source, which reads no mutable or global state). -/
theorem C8_determinism (s1 e1 s2 e2 : Point) (hs : s1 = s2) (he : e1 = e2) :
    compute_elbow_path s1 e1 = compute_elbow_path s2 e2 := by
  rw [hs, he]

/-- C8 witness: determinism at the concrete input `(0,0) → (100,100)`. -/
theorem C8_witness :
    compute_elbow_path ⟨0, 0⟩ ⟨100, 100⟩ = compute_elbow_path ⟨0, 0⟩ ⟨100, 100⟩ :=
  C8_determinism ⟨0, 0⟩ ⟨100, 100⟩ ⟨0, 0⟩ ⟨100, 100⟩ rfl rfl

/-- C9: `neighbors` yields the four cardinal moves minus the reverse of
the current heading (4 when the heading is `None`, 3 otherwise); every
generated neighbor moves one step along its own heading and costs 1 on a
straight continuation and `1 + turn_penalty^3` on a turn; and every
non-reverse cardinal move is generated. -/
theorem C9_neighbors_spec (cell : Cell) (tp : ℕ) :
    (neighbors cell tp).length = (if cell.heading = Heading.None then 4 else 3) ∧
    (∀ p ∈ neighbors cell tp,
      p.1.heading ≠ cell.heading.reverse ∧
      p.1.x = cell.x + (headingDelta p.1.heading).1 ∧
      p.1.y = cell.y + (headingDelta p.1.heading).2 ∧
      p.2 = (if cell.heading = Heading.None ∨ cell.heading = p.1.heading then 1
             else 1 + tp ^ 3)) ∧
    (∀ h : Heading, h ≠ Heading.None → h ≠ cell.heading.reverse →
      (Cell.new (cell.x + (headingDelta h).1) (cell.y + (headingDelta h).2) h,
        if cell.heading = Heading.None ∨ cell.heading = h then 1 else 1 + tp ^ 3) ∈
        neighbors cell tp) := by
  obtain ⟨x, y, hd⟩ := cell
  cases hd
  case Up =>
    rw [neighbors_up]
    refine ⟨by simp, ?_, ?_⟩
    · intro p hp
      simp only [List.mem_cons, List.not_mem_nil, or_false] at hp
      rcases hp with rfl | rfl | rfl <;>
        simp [Heading.reverse, headingDelta, Cell.new] <;> omega
    · intro h hN hR
      cases h <;> simp_all [Heading.reverse, headingDelta, Cell.new] <;> omega
  case Down =>
    rw [neighbors_down]
    refine ⟨by simp, ?_, ?_⟩
    · intro p hp
      simp only [List.mem_cons, List.not_mem_nil, or_false] at hp
      rcases hp with rfl | rfl | rfl <;>
        simp [Heading.reverse, headingDelta, Cell.new] <;> omega
    · intro h hN hR
      cases h <;> simp_all [Heading.reverse, headingDelta, Cell.new] <;> omega
  case Left =>
    rw [neighbors_left]
    refine ⟨by simp, ?_, ?_⟩
    · intro p hp
      simp only [List.mem_cons, List.not_mem_nil, or_false] at hp
      rcases hp with rfl | rfl | rfl <;>
        simp [Heading.reverse, headingDelta, Cell.new] <;> omega
    · intro h hN hR
      cases h <;> simp_all [Heading.reverse, headingDelta, Cell.new] <;> omega
  case Right =>
    rw [neighbors_right]
    refine ⟨by simp, ?_, ?_⟩
    · intro p hp
      simp only [List.mem_cons, List.not_mem_nil, or_false] at hp
      rcases hp with rfl | rfl | rfl <;>
        simp [Heading.reverse, headingDelta, Cell.new] <;> omega
    · intro h hN hR
      cases h <;> simp_all [Heading.reverse, headingDelta, Cell.new] <;> omega
  case None =>
    rw [neighbors_noheading]
    refine ⟨by simp, ?_, ?_⟩
    · intro p hp
      simp only [List.mem_cons, List.not_mem_nil, or_false] at hp
      rcases hp with rfl | rfl | rfl | rfl <;>
        simp [Heading.reverse, headingDelta, Cell.new] <;> omega
    · intro h hN hR
      cases h <;> simp_all [Heading.reverse, headingDelta, Cell.new] <;> omega

/-- C9 witness: a heading-`None` cell generates all four moves. -/
theorem C9_witness : (neighbors (Cell.new 0 0 Heading.None) 2).length = 4 := by
  have h := (C9_neighbors_spec (Cell.new 0 0 Heading.None) 2).1
  simpa using h

/-- C10: the function returns normally on every pair of inputs; the
branch holding the `.expect` on the A* result (modelled as `none`) is
unreachable, so no panic and no error is ever signaled. -/
theorem C10_no_panic (s e : Point) : (compute_elbow_path s e).isSome = true := by
  rcases compute_elbow_path_cases s e with h | h <;> rw [h] <;> rfl
